import Mathlib

/-!
# Verification of the Base DeFi utilities analytics engine

Shallow embedding of the repository's quantitative analytics code:

* `YieldCalculator` (`src/utils/yield-calculator.js`): `calculateAPY`,
  `calculateOptimalCompounding`, `estimateImpermanentLoss`;
* `BaseYieldCalculator` (`src/yield-calculator.js` and its
  prototype-extension file): `calculateImpermanentLoss`, `calculateVaR`,
  `calculateMaxDrawdown`, `optimizeYieldStrategy`,
  `calculateAdvancedImpermanentLoss`;
* `BaseRiskAssessment` (`src/utils/risk-assessment.js`):
  `calculatePortfolioVaR`, `getAssetCorrelation`.

Money/ratio arithmetic performed by the source on JavaScript numbers or
`bignumber.js` decimals is embedded as exact arithmetic on `ℚ` where the
code uses only field operations, and on `ℝ` where `Math.sqrt` /
`BigNumber.sqrt` appear.  String formatting (`toFixed`, percent signs) is
dropped; the numeric value that would be formatted is kept.
-/

namespace DeFi

/-! ## YieldCalculator (`src/utils/yield-calculator.js`) -/

/-- Source `calculateAPY(apr, compoundFrequency)`:
`aprDecimal = apr/100; compoundRate = aprDecimal/n;
apy = (compoundRate + 1)^n - 1; return apy * 100`.
The source performs no input validation and has no error path. -/
def calculateAPY (apr : ℚ) (n : ℕ) : ℚ :=
  ((apr / 100 / n + 1) ^ n - 1) * 100

/-- The fixed candidate set of `calculateOptimalCompounding`:
`[1, 4, 12, 52, 365]` (yearly, quarterly, monthly, weekly, daily). -/
def frequencies : List ℕ := [1, 4, 12, 52, 365]

/-- Per-candidate net yield inside `calculateOptimalCompounding`:
`grossYield = principal * (apy/100); totalGasCost = gasCost * freq;
netYield = grossYield - totalGasCost`. -/
def netYield (apr gasCost principal : ℚ) (freq : ℕ) : ℚ :=
  principal * (calculateAPY apr freq / 100) - gasCost * freq

/-- Loop body of `calculateOptimalCompounding`: the running pair
`(optimalFreq, maxNetYield)` is replaced exactly when
`netYield.isGreaterThan(maxNetYield)`. -/
def bestStep (y : ℕ → ℚ) (acc : ℕ × ℚ) (freq : ℕ) : ℕ × ℚ :=
  if y freq > acc.2 then (freq, y freq) else acc

/-- The `frequencies.forEach` accumulation of `calculateOptimalCompounding`,
started from `optimalFreq = 1, maxNetYield = 0`. -/
def optimalSelect (y : ℕ → ℚ) : ℕ × ℚ :=
  frequencies.foldl (bestStep y) (1, 0)

/-- Source `getCompoundingStrategy(frequency)` description table. -/
def getCompoundingStrategy (frequency : ℕ) : String :=
  if frequency = 1 then "Annual compounding - Low gas, lower yield"
  else if frequency = 4 then "Quarterly compounding - Balanced approach"
  else if frequency = 12 then "Monthly compounding - Good for medium amounts"
  else if frequency = 52 then "Weekly compounding - Higher gas, better yield"
  else if frequency = 365 then "Daily compounding - Highest gas, maximum yield"
  else "Custom frequency"

/-- Result object of `calculateOptimalCompounding`. -/
structure CompoundingResult where
  optimalFrequency : ℕ
  maxNetYield : ℚ
  recommendedStrategy : String
  deriving DecidableEq, Repr

/-- Source `calculateOptimalCompounding(apr, gasCost, principal)`. -/
def calculateOptimalCompounding (apr gasCost principal : ℚ) :
    CompoundingResult :=
  let r := optimalSelect (netYield apr gasCost principal)
  ⟨r.1, r.2, getCompoundingStrategy r.1⟩

/-- The selection fold never returns a value below any candidate's yield. -/
lemma optimalSelect_le (y : ℕ → ℚ) :
    ∀ f ∈ frequencies, y f ≤ (optimalSelect y).2 := by
  intro f hf
  simp only [frequencies, List.mem_cons, List.not_mem_nil, or_false] at hf
  simp only [optimalSelect, frequencies, List.foldl, bestStep]
  split_ifs <;> rcases hf with rfl | rfl | rfl | rfl | rfl <;>
    dsimp only at * <;> linarith

/-- The selection fold either never fires (returning the initial pair
`(1, 0)`) or returns a candidate frequency together with its own strictly
positive yield. -/
lemma optimalSelect_cases (y : ℕ → ℚ) :
    optimalSelect y = (1, 0) ∨
      ((optimalSelect y).1 ∈ frequencies ∧
        (optimalSelect y).2 = y (optimalSelect y).1 ∧
        0 < (optimalSelect y).2) := by
  simp only [optimalSelect, frequencies, List.foldl, bestStep]
  split_ifs <;> dsimp only at * <;> simp_all <;> linarith

/-- Any candidate strictly below the selected frequency has a strictly
smaller yield than the selected value. -/
lemma optimalSelect_earliest (y : ℕ → ℚ) :
    ∀ f ∈ frequencies, f < (optimalSelect y).1 → y f < (optimalSelect y).2 := by
  intro f hf
  simp only [frequencies, List.mem_cons, List.not_mem_nil, or_false] at hf
  simp only [optimalSelect, frequencies, List.foldl, bestStep]
  split_ifs <;> rcases hf with rfl | rfl | rfl | rfl | rfl <;>
    dsimp only at * <;> intro h <;>
    first | omega | linarith

/-- The two runs of `netYield` at gas costs `g₁ ≥ g₂` differ by
`(g₁ - g₂) * f` at each candidate `f`. -/
lemma netYield_gas_shift (apr g₁ g₂ principal : ℚ) (f : ℕ) :
    netYield apr g₂ principal f
      = netYield apr g₁ principal f + (g₁ - g₂) * f := by
  simp only [netYield]; ring

/-- Every candidate frequency is at least 1. -/
lemma frequencies_pos : ∀ f ∈ frequencies, 1 ≤ f := by
  intro f hf
  simp only [frequencies, List.mem_cons, List.not_mem_nil, or_false] at hf
  rcases hf with rfl | rfl | rfl | rfl | rfl <;> omega

end DeFi

open DeFi

/-- C3 (counterexample): at `apr = 450`, `gasCostPerCompound = 49/10`,
`principal = 1`, the frequency `4` has the strictly greatest net yield
among all five candidates, yet `calculateOptimalCompounding` returns
frequency `1` (all net yields are negative, so the running maximum —
initialised to `0` — is never beaten and the initial frequency `1`
survives).  This refutes the claim that the returned frequency always has
the strictly greatest net yield. -/
theorem c3_counterexample :
    (calculateOptimalCompounding 450 (49/10) 1).optimalFrequency = 1 ∧
    netYield 450 (49/10) 1 1 < netYield 450 (49/10) 1 4 ∧
    netYield 450 (49/10) 1 12 < netYield 450 (49/10) 1 4 ∧
    netYield 450 (49/10) 1 52 < netYield 450 (49/10) 1 4 ∧
    netYield 450 (49/10) 1 365 < netYield 450 (49/10) 1 4 := by
  refine ⟨?_, ?_, ?_, ?_, ?_⟩ <;>
    norm_num [calculateOptimalCompounding, optimalSelect, frequencies,
      bestStep, List.foldl, netYield, calculateAPY]

/-- C3 (amended): for `apr ≥ 0`, `gasCostPerCompound ≥ 0`, `principal > 0`,
the optimizer evaluates the candidates `{1, 4, 12, 52, 365}` with
`netYield f = principal * apyFromApr(apr, f)/100 - gasCostPerCompound * f`;
whenever some candidate has strictly positive net yield it returns the
earliest frequency attaining the strictly greatest net yield (strict `>`
keeps the earliest candidate on ties), and that maximum as `maxNetYield`;
when no candidate's net yield is positive it returns frequency `1` with
`maxNetYield = 0`, regardless of where the true maximum lies. -/
theorem c3_optimalCompounding_selection (apr gasCost principal : ℚ)
    (hapr : 0 ≤ apr) (hgas : 0 ≤ gasCost) (hp : 0 < principal) :
    ((∃ f ∈ frequencies, 0 < netYield apr gasCost principal f) →
      (calculateOptimalCompounding apr gasCost principal).optimalFrequency
          ∈ frequencies ∧
      (calculateOptimalCompounding apr gasCost principal).maxNetYield
        = netYield apr gasCost principal
            (calculateOptimalCompounding apr gasCost principal).optimalFrequency ∧
      (∀ f ∈ frequencies,
        netYield apr gasCost principal f
          ≤ netYield apr gasCost principal
              (calculateOptimalCompounding apr gasCost principal).optimalFrequency) ∧
      (∀ f ∈ frequencies,
        netYield apr gasCost principal f
            = netYield apr gasCost principal
                (calculateOptimalCompounding apr gasCost principal).optimalFrequency →
        (calculateOptimalCompounding apr gasCost principal).optimalFrequency ≤ f)) ∧
    ((∀ f ∈ frequencies, netYield apr gasCost principal f ≤ 0) →
      (calculateOptimalCompounding apr gasCost principal).optimalFrequency = 1 ∧
      (calculateOptimalCompounding apr gasCost principal).maxNetYield = 0) := by
  have hfreq :
      (calculateOptimalCompounding apr gasCost principal).optimalFrequency
        = (optimalSelect (netYield apr gasCost principal)).1 := rfl
  have hmax :
      (calculateOptimalCompounding apr gasCost principal).maxNetYield
        = (optimalSelect (netYield apr gasCost principal)).2 := rfl
  set y := netYield apr gasCost principal with hy
  constructor
  · rintro ⟨f0, hf0, hy0⟩
    rcases optimalSelect_cases y with hc | ⟨hmem, heq, _⟩
    · exfalso
      have := optimalSelect_le y f0 hf0
      rw [hc] at this
      exact absurd (lt_of_lt_of_le hy0 this) (by norm_num)
    · refine ⟨hfreq ▸ hmem, by rw [hfreq, hmax, heq], ?_, ?_⟩
      · intro f hf
        have := optimalSelect_le y f hf
        rw [hfreq, ← heq]
        exact this
      · intro f hf hEq
        rw [hfreq] at hEq ⊢
        by_contra hlt
        push_neg at hlt
        have := optimalSelect_earliest y f hf hlt
        rw [heq] at this
        exact absurd hEq (ne_of_lt this)
  · intro hall
    rcases optimalSelect_cases y with hc | ⟨hmem, heq, hpos⟩
    · rw [hfreq, hmax, hc]
      exact ⟨rfl, rfl⟩
    · exfalso
      have := hall _ hmem
      rw [← heq] at this
      exact absurd hpos (not_lt_of_le this)

/-- C3 (witness): the amended selection theorem instantiated at
`apr = 10`, `gasCostPerCompound = 1/10`, `principal = 1000`, where the
annual candidate already has positive net yield. -/
theorem c3_witness :
    (0:ℚ) ≤ 10 ∧ (0:ℚ) ≤ 1/10 ∧ (0:ℚ) < 1000 ∧
    ((∃ f ∈ frequencies, 0 < netYield 10 (1/10) 1000 f) →
      (calculateOptimalCompounding 10 (1/10) 1000).optimalFrequency
          ∈ frequencies ∧
      (calculateOptimalCompounding 10 (1/10) 1000).maxNetYield
        = netYield 10 (1/10) 1000
            (calculateOptimalCompounding 10 (1/10) 1000).optimalFrequency ∧
      (∀ f ∈ frequencies,
        netYield 10 (1/10) 1000 f
          ≤ netYield 10 (1/10) 1000
              (calculateOptimalCompounding 10 (1/10) 1000).optimalFrequency) ∧
      (∀ f ∈ frequencies,
        netYield 10 (1/10) 1000 f
            = netYield 10 (1/10) 1000
                (calculateOptimalCompounding 10 (1/10) 1000).optimalFrequency →
        (calculateOptimalCompounding 10 (1/10) 1000).optimalFrequency ≤ f)) := by
  refine ⟨by norm_num, by norm_num, by norm_num, ?_⟩
  exact (c3_optimalCompounding_selection 10 (1/10) 1000 (by norm_num)
    (by norm_num) (by norm_num)).1

/-- C4: for fixed `apr ≥ 0` and `principal > 0`, the returned optimal
compounding frequency is monotonically non-increasing in the gas cost:
`gasCost₂ ≤ gasCost₁` implies the frequency at `gasCost₁` is at most the
frequency at `gasCost₂`. -/
theorem c4_optimalFrequency_gas_antitone (apr g₁ g₂ principal : ℚ)
    (hapr : 0 ≤ apr) (hp : 0 < principal) (hg : g₂ ≤ g₁) :
    (calculateOptimalCompounding apr g₁ principal).optimalFrequency
      ≤ (calculateOptimalCompounding apr g₂ principal).optimalFrequency := by
  have hfreq₁ :
      (calculateOptimalCompounding apr g₁ principal).optimalFrequency
        = (optimalSelect (netYield apr g₁ principal)).1 := rfl
  have hfreq₂ :
      (calculateOptimalCompounding apr g₂ principal).optimalFrequency
        = (optimalSelect (netYield apr g₂ principal)).1 := rfl
  rw [hfreq₁, hfreq₂]
  set y₁ := netYield apr g₁ principal with hy₁
  set y₂ := netYield apr g₂ principal with hy₂
  by_contra hlt
  push_neg at hlt
  rcases optimalSelect_cases y₁ with hc₁ | ⟨hmem₁, heq₁, hpos₁⟩
  · -- run 1 never selected anything: its frequency is 1, the minimum
    rw [hc₁] at hlt
    rcases optimalSelect_cases y₂ with hc₂ | ⟨hmem₂, _, _⟩
    · rw [hc₂] at hlt; exact absurd hlt (by norm_num)
    · exact absurd hlt (not_lt_of_le (frequencies_pos _ hmem₂))
  · have hshift := netYield_gas_shift apr g₁ g₂ principal
        (optimalSelect y₁).1
    have hd : 0 ≤ g₁ - g₂ := by linarith
    have hy₂pos : 0 < y₂ (optimalSelect y₁).1 := by
      rw [← hy₁, ← hy₂] at hshift
      have : 0 ≤ (g₁ - g₂) * ((optimalSelect y₁).1 : ℚ) :=
        mul_nonneg hd (by positivity)
      rw [hshift]
      rw [heq₁] at hpos₁
      linarith
    rcases optimalSelect_cases y₂ with hc₂ | ⟨hmem₂, heq₂, _⟩
    · -- run 2 never selected: then all its yields are ≤ 0, impossible
      have := optimalSelect_le y₂ _ hmem₁
      rw [hc₂] at this
      exact absurd (lt_of_lt_of_le hy₂pos this) (by norm_num)
    · -- run 2 selected an earlier frequency with at least as large a yield
      have hEarl := optimalSelect_earliest y₁ _ hmem₂ hlt
      have hLe := optimalSelect_le y₂ _ hmem₁
      rw [heq₂] at hLe
      rw [heq₁] at hEarl
      have hshift₂ := netYield_gas_shift apr g₁ g₂ principal
          (optimalSelect y₂).1
      rw [← hy₁, ← hy₂] at hshift hshift₂
      have hcast : ((optimalSelect y₂).1 : ℚ) ≤ ((optimalSelect y₁).1 : ℚ) :=
        Nat.cast_le.mpr (le_of_lt hlt)
      have hmul : (g₁ - g₂) * ((optimalSelect y₂).1 : ℚ)
          ≤ (g₁ - g₂) * ((optimalSelect y₁).1 : ℚ) :=
        mul_le_mul_of_nonneg_left hcast hd
      linarith

/-- C4 (witness): the spec's own example — `apr = 10`, `principal = 1000`,
gas cost 50 versus 1/10. -/
theorem c4_witness :
    (0:ℚ) ≤ 10 ∧ (0:ℚ) < 1000 ∧ (1/10 : ℚ) ≤ 50 ∧
    (calculateOptimalCompounding 10 50 1000).optimalFrequency
      ≤ (calculateOptimalCompounding 10 (1/10) 1000).optimalFrequency := by
  refine ⟨by norm_num, by norm_num, by norm_num, ?_⟩
  exact c4_optimalFrequency_gas_antitone 10 50 (1/10) 1000 (by norm_num)
    (by norm_num) (by norm_num)

/-- C7: the claim requires `calculateAPY(-5, 365)` to raise a
ValidationError, and the repository's own test suite asserts
`expect(() => calculator.calculateAPY(-5, 365)).to.throw()`; but the source
body performs no validation at all — it is a pure arithmetic expression
that happily evaluates negative APRs.  At the failing input the code
returns the (negative) number `((1 - 5/36500)^365 - 1) * 100` instead of
raising. -/
theorem c7_calculateAPY_negative_apr_returns :
    calculateAPY (-5) 365 < 0 ∧
    calculateAPY (-5) 365 = ((1 - 5/100/365) ^ (365:ℕ) - 1) * 100 := by
  constructor
  · have h : ((-5 : ℚ) / 100 / 365 + 1) ^ (365:ℕ) < 1 := by
      have hb : ((-5 : ℚ) / 100 / 365 + 1) = 7299/7300 := by norm_num
      rw [hb]
      exact pow_lt_one₀ (by norm_num) (by norm_num) (by norm_num)
    have : calculateAPY (-5) 365 = (((-5 : ℚ)/100/365 + 1) ^ (365:ℕ) - 1) * 100 := rfl
    rw [this]
    nlinarith
  · show ((-5/100/365 + 1 : ℚ) ^ (365:ℕ) - 1) * 100 = _
    norm_num

namespace DeFi

/-! ## BaseYieldCalculator impermanent loss (`src/yield-calculator.js`) -/

/-- Result object of `calculateImpermanentLoss` (numeric values kept,
`toFixed` formatting dropped). -/
structure ILResult where
  priceChange : ℝ
  impermanentLoss : ℝ
  lossPercentage : ℝ
  recommendation : String

/-- Source `calculateImpermanentLoss(initialPrice, currentPrice)`:
`priceRatio = currentPrice/initialPrice;
impermanentLoss = 2*sqrt(priceRatio)/(1+priceRatio) - 1;
lossPercentage = |impermanentLoss*100|`. -/
noncomputable def calculateImpermanentLoss (initialPrice currentPrice : ℝ) :
    ILResult :=
  let priceRatio := currentPrice / initialPrice
  let impermanentLoss := 2 * Real.sqrt priceRatio / (1 + priceRatio) - 1
  let lossPercentage := |impermanentLoss * 100|
  ⟨(priceRatio - 1) * 100, impermanentLoss * 100, lossPercentage,
    if lossPercentage > 5 then "Consider rebalancing" else "Position stable"⟩

/-- Source `estimateImpermanentLoss(poolData)` from `YieldCalculator`
(`src/utils/yield-calculator.js`): `if (!priceRatio) return '0'`, else
`|2*sqrt(ratio)/(ratio+1) - 1| * 100`. -/
noncomputable def estimateImpermanentLoss (priceRatio : ℝ) : ℝ :=
  if priceRatio = 0 then 0
  else |2 * Real.sqrt priceRatio / (priceRatio + 1) - 1| * 100

/-! ## BaseYieldCalculator max drawdown (prototype extension file) -/

/-- Mutable loop state of `calculateMaxDrawdown`. -/
structure DrawdownState where
  peak : ℚ
  maxDrawdown : ℚ
  drawdownStart : ℕ
  drawdownEnd : ℕ
  currentDrawdownStart : ℕ
  deriving DecidableEq, Repr

/-- One iteration of the `for (let i = 1; ...)` loop of
`calculateMaxDrawdown`. -/
def drawdownStep (s : DrawdownState) (i : ℕ) (p : ℚ) : DrawdownState :=
  if p > s.peak then
    { s with peak := p, currentDrawdownStart := i }
  else
    let drawdown := (s.peak - p) / s.peak
    if drawdown > s.maxDrawdown then
      { s with maxDrawdown := drawdown,
               drawdownStart := s.currentDrawdownStart,
               drawdownEnd := i }
    else s

/-- The whole scan, starting at index `i` over the remaining prices. -/
def drawdownLoop (s : DrawdownState) : ℕ → List ℚ → DrawdownState
  | _, [] => s
  | i, p :: rest => drawdownLoop (drawdownStep s i p) (i + 1) rest

/-- Result object of `calculateMaxDrawdown`; `maxDrawdown` is the numeric
value of the `(maxDrawdown * 100).toFixed(2) + '%'` output, `peakValue`
and `troughValue` are `none` when the source's short-circuit branch omits
them (or indexes out of range). -/
structure DrawdownResult where
  maxDrawdown : ℚ
  drawdownPeriod : ℤ
  peakValue : Option ℚ
  troughValue : Option ℚ
  deriving DecidableEq, Repr

/-- Source `calculateMaxDrawdown(priceHistory)`: series shorter than 2 entries
short-circuits to `maxDrawdown = 0`; otherwise a single left-to-right
scan with a running peak. -/
def calculateMaxDrawdown (priceHistory : List ℚ) : DrawdownResult :=
  match priceHistory with
  | [] => ⟨0, 0, none, none⟩
  | [_] => ⟨0, 0, none, none⟩
  | p0 :: p1 :: rest =>
      let s := drawdownLoop ⟨p0, 0, 0, 0, 0⟩ 1 (p1 :: rest)
      ⟨s.maxDrawdown * 100, (s.drawdownEnd : ℤ) - (s.drawdownStart : ℤ),
        some s.peak, (p0 :: p1 :: rest).get? s.drawdownEnd⟩

/-- Scanning a non-decreasing tail whose first entry is at least the
current peak never records a positive drawdown. -/
lemma drawdownLoop_mono_maxDrawdown :
    ∀ (l : List ℚ) (i : ℕ) (s : DrawdownState),
      s.maxDrawdown = 0 →
      l.Chain' (· ≤ ·) →
      (∀ p, l.head? = some p → s.peak ≤ p) →
      (drawdownLoop s i l).maxDrawdown = 0 := by
  intro l
  induction l with
  | nil => intro i s h _ _; exact h
  | cons p rest ih =>
      intro i s hmd hchain hhead
      have hpeak : s.peak ≤ p := hhead p rfl
      have hchain' : rest.Chain' (· ≤ ·) := hchain.tail
      have hnext : ∀ q, rest.head? = some q → p ≤ q := by
        intro q hq
        cases rest with
        | nil => simp at hq
        | cons q' rest' =>
            rw [List.head?_cons, Option.some.injEq] at hq
            subst hq
            exact (List.chain'_cons.mp hchain).1
      show (drawdownLoop (drawdownStep s i p) (i + 1) rest).maxDrawdown = 0
      by_cases hgt : p > s.peak
      · refine ih (i + 1) _ ?_ hchain' ?_
        · simp [drawdownStep, if_pos hgt, hmd]
        · intro q hq
          simpa [drawdownStep, if_pos hgt] using hnext q hq
      · have hpe : p = s.peak := le_antisymm (not_lt.mp hgt) hpeak
        have hstep : drawdownStep s i p = s := by
          simp only [drawdownStep, if_neg hgt]
          rw [hpe, sub_self, zero_div, hmd, if_neg (gt_irrefl (0:ℚ))]
        rw [hstep]
        refine ih (i + 1) s hmd hchain' ?_
        intro q hq
        exact hpe ▸ hnext q hq

end DeFi

/-- C10: `calculateMaxDrawdown` returns drawdown `0` for every price
series of length less than 2 (including the empty series), and for every
monotonically non-decreasing price series. -/
theorem c10_maxDrawdown_zero :
    (∀ l : List ℚ, l.length < 2 → (calculateMaxDrawdown l).maxDrawdown = 0) ∧
    (∀ l : List ℚ, l.Chain' (· ≤ ·) →
      (calculateMaxDrawdown l).maxDrawdown = 0) := by
  constructor
  · intro l hl
    match l, hl with
    | [], _ => rfl
    | [_], _ => rfl
  · intro l hchain
    match l with
    | [] => rfl
    | [_] => rfl
    | p0 :: p1 :: rest =>
        show (drawdownLoop ⟨p0, 0, 0, 0, 0⟩ 1 (p1 :: rest)).maxDrawdown * 100 = 0
        rw [drawdownLoop_mono_maxDrawdown (p1 :: rest) 1 ⟨p0, 0, 0, 0, 0⟩
          rfl hchain.tail (by
            intro q hq
            rw [List.head?_cons, Option.some.injEq] at hq
            subst hq
            exact (List.chain'_cons.mp hchain).1)]
        norm_num

/-- C10 (witness): the short-series branch at `[5]` and the monotone
branch at `[1, 2, 3]`. -/
theorem c10_witness :
    (([ (5:ℚ) ].length < 2) ∧ (calculateMaxDrawdown [(5:ℚ)]).maxDrawdown = 0) ∧
    ((List.Chain' (· ≤ ·) [(1:ℚ), 2, 3]) ∧
      (calculateMaxDrawdown [(1:ℚ), 2, 3]).maxDrawdown = 0) := by
  refine ⟨⟨by norm_num, c10_maxDrawdown_zero.1 [(5:ℚ)] (by norm_num)⟩,
    ⟨?_, c10_maxDrawdown_zero.2 [(1:ℚ), 2, 3] ?_⟩⟩ <;>
    · refine List.chain'_cons.mpr ⟨by norm_num, List.chain'_cons.mpr
        ⟨by norm_num, List.chain'_singleton 3⟩⟩

/-- C5: zero impermanent loss for an unchanged price ratio, and symmetry
of the loss percentage under inverting the price ratio. -/
theorem c5_impermanentLoss_symmetry (r : ℝ) (hr : 0 < r) :
    (calculateImpermanentLoss r r).lossPercentage = 0 ∧
    estimateImpermanentLoss r = estimateImpermanentLoss r⁻¹ := by
  constructor
  · show |(2 * Real.sqrt (r / r) / (1 + r / r) - 1) * 100| = 0
    rw [div_self (ne_of_gt hr), Real.sqrt_one]
    norm_num
  · have hr0 : r ≠ 0 := ne_of_gt hr
    have hs : 0 < Real.sqrt r := Real.sqrt_pos.mpr hr
    have key : Real.sqrt r ^ 2 = r := Real.sq_sqrt hr.le
    have hinner : 2 * Real.sqrt r⁻¹ / (r⁻¹ + 1) = 2 * Real.sqrt r / (r + 1) := by
      rw [Real.sqrt_inv]
      rw [div_eq_div_iff (by positivity) (by positivity)]
      field_simp
      linear_combination (-2 * r - 2) * key
    unfold estimateImpermanentLoss
    rw [if_neg hr0, if_neg (inv_ne_zero hr0), hinner]

/-- C5 (witness): instantiated at price ratio `4`. -/
theorem c5_witness :
    (0:ℝ) < 4 ∧
    ((calculateImpermanentLoss 4 4).lossPercentage = 0 ∧
      estimateImpermanentLoss 4 = estimateImpermanentLoss 4⁻¹) :=
  ⟨by norm_num, c5_impermanentLoss_symmetry 4 (by norm_num)⟩

namespace DeFi

/-! ## BaseYieldCalculator VaR (prototype extension file) -/

/-- JavaScript's `x || d` applied to an optional numeric field: a missing
field (`undefined`) and the number `0` are both falsy and fall back to the
default. -/
noncomputable def jsOr (v : Option ℝ) (d : ℝ) : ℝ :=
  match v with
  | none => d
  | some x => if x = 0 then d else x

/-- A `portfolio.positions` entry as consumed by `calculateVaR`. -/
structure VarPosition where
  amount : ℝ
  price : ℝ
  volatility : Option ℝ

/-- Body of the `positions.forEach` accumulation in `calculateVaR`:
`positionValue = amount * price; totalValue += positionValue;
portfolioVolatility += (volatility || 0.3)^2 * (positionValue/totalValue)^2`
— note that the division uses the *running* total, exactly as the source
does. -/
noncomputable def varStep (acc : ℝ × ℝ) (p : VarPosition) : ℝ × ℝ :=
  let positionValue := p.amount * p.price
  let totalValue := acc.1 + positionValue
  (totalValue,
    acc.2 + (jsOr p.volatility (3/10)) ^ 2 * (positionValue / totalValue) ^ 2)

/-- Result object of `calculateVaR` (numeric values of the formatted
outputs). -/
structure VaRResult where
  totalValue : ℝ
  portfolioVolatility : ℝ
  dailyVaR : ℝ
  periodVaR : ℝ
  riskLevel : String

/-- Source `calculateVaR(portfolio, confidenceLevel, timeHorizon)` from the
`BaseYieldCalculator` prototype extensions.  The source contains no
validation and no throw: an empty `positions` array flows straight
through the arithmetic. -/
noncomputable def calculateVaR (positions : List VarPosition)
    (confidenceLevel timeHorizon : ℝ) : VaRResult :=
  let acc := positions.foldl varStep (0, 0)
  let totalValue := acc.1
  let portfolioVolatility := Real.sqrt acc.2
  let zScore : ℝ :=
    if confidenceLevel = 95/100 then 1645/1000
    else if confidenceLevel = 99/100 then 2326/1000 else 196/100
  let dailyVaR := totalValue * portfolioVolatility * zScore
  let periodVaR := dailyVaR * Real.sqrt timeHorizon
  ⟨totalValue, portfolioVolatility, dailyVaR, periodVaR,
    if dailyVaR / totalValue > 5/100 then "High"
    else if dailyVaR / totalValue > 2/100 then "Medium" else "Low"⟩

end DeFi

/-- C8 (counterexample): on the empty portfolio, `calculateVaR` does not
raise anything — it returns a fully formed result object (the source has
no validation and no throw statement), refuting the claim that an empty
portfolio raises a ValidationError instead of returning a result. -/
theorem c8_counterexample :
    calculateVaR [] (95/100) 1 = ⟨0, 0, 0, 0, "Low"⟩ := by
  unfold calculateVaR
  simp only [List.foldl, Real.sqrt_zero, Real.sqrt_one]
  norm_num

/-- C8 (amended): for every confidence level and time horizon,
`calculateVaR` on the empty portfolio returns a result object with
`totalValue = 0`, `dailyVaR = 0`, `periodVaR = 0` and risk level `"Low"`,
rather than raising a ValidationError. -/
theorem c8_empty_portfolio_returns (confidenceLevel timeHorizon : ℝ) :
    (calculateVaR [] confidenceLevel timeHorizon).totalValue = 0 ∧
    (calculateVaR [] confidenceLevel timeHorizon).dailyVaR = 0 ∧
    (calculateVaR [] confidenceLevel timeHorizon).periodVaR = 0 ∧
    (calculateVaR [] confidenceLevel timeHorizon).riskLevel = "Low" := by
  unfold calculateVaR
  simp only [List.foldl, Real.sqrt_zero]
  norm_num

namespace DeFi

/-! ## BaseRiskAssessment (`src/utils/risk-assessment.js`) -/

/-- The hardcoded correlation map of `getAssetCorrelation`. -/
noncomputable def correlationTable : List (String × ℝ) :=
  [("ETH-BTC", 7/10), ("USDC-USDT", 95/100), ("ETH-USDC", 1/10),
    ("BTC-USDC", 5/100)]

/-- Lookup `correlations[key]` — association-list lookup on the template-string
key. -/
noncomputable def lookupCorrelation (key : String) : Option ℝ :=
  (correlationTable.find? (fun kv => kv.1 == key)).map Prod.snd

/-- Source `getAssetCorrelation(asset1, asset2)`:
`correlations[key] || correlations[reverseKey] || 0.3`. -/
noncomputable def getAssetCorrelation (asset1 asset2 : String) : ℝ :=
  jsOr (lookupCorrelation (asset1 ++ "-" ++ asset2))
    (jsOr (lookupCorrelation (asset2 ++ "-" ++ asset1)) (3/10))

/-- A `portfolio.positions` entry as consumed by `calculatePortfolioVaR`. -/
structure RiskPosition where
  asset : String
  amount : ℝ
  price : ℝ
  volatility : Option ℝ

/-- Body of the first `positions.forEach` loop of `calculatePortfolioVaR`:
`positionValue = amount * price; portfolioValue += positionValue;
weight = positionValue / portfolioValue;
volatility = position.volatility || 0.3;
portfolioVariance += (weight * volatility)^2` — again the division is by
the *running* portfolio value, exactly as in the source. -/
noncomputable def riskVarStep (acc : ℝ × ℝ) (p : RiskPosition) : ℝ × ℝ :=
  let positionValue := p.amount * p.price
  let portfolioValue := acc.1 + positionValue
  let weight := positionValue / portfolioValue
  (portfolioValue, acc.2 + (weight * jsOr p.volatility (3/10)) ^ 2)

/-- The second (correlation) double loop of `calculatePortfolioVaR`:
`Σ_{i<j} 2 * w_i * w_j * σ_i * σ_j * ρ_{ij}` with
`w = (amount*price)/portfolioValue` taken against the **final**
`portfolioValue`. -/
noncomputable def pairwiseCorrelationSum (portfolioValue : ℝ) :
    List RiskPosition → ℝ
  | [] => 0
  | p :: rest =>
      (rest.map (fun q =>
        2 * ((p.amount * p.price) / portfolioValue)
          * ((q.amount * q.price) / portfolioValue)
          * jsOr p.volatility (3/10) * jsOr q.volatility (3/10)
          * getAssetCorrelation p.asset q.asset)).sum
      + pairwiseCorrelationSum portfolioValue rest

/-- The final `portfolioValue` accumulated by the first loop. -/
noncomputable def riskPortfolioValue (positions : List RiskPosition) : ℝ :=
  (positions.foldl riskVarStep (0, 0)).1

/-- The `portfolioVariance` computed by `calculatePortfolioVaR`: the
running-total diagonal loop plus the final-total correlation loop. -/
noncomputable def portfolioVarianceCode (positions : List RiskPosition) : ℝ :=
  (positions.foldl riskVarStep (0, 0)).2
    + pairwiseCorrelationSum (riskPortfolioValue positions) positions

/-- Modelled from the spec: the claimed portfolio variance
`Σ w_i²σ_i² + 2·Σ_{i<j} w_i w_j σ_i σ_j ρ_{ij}` with every weight
`w_i = value_i / totalValue` taken against the final total portfolio
value (σ defaulting to 0.3, ρ from the correlation table defaulting to
0.3). -/
noncomputable def portfolioVarianceSpec (positions : List RiskPosition) : ℝ :=
  let totalValue := (positions.map (fun p => p.amount * p.price)).sum
  (positions.map (fun p =>
      ((p.amount * p.price) / totalValue) ^ 2
        * (jsOr p.volatility (3/10)) ^ 2)).sum
    + pairwiseCorrelationSum totalValue positions

/-- Result object of `calculatePortfolioVaR` (95% tier; the 90/99 tiers
differ only in the z-score constant). -/
structure PortfolioVaRResult where
  portfolioValue : ℝ
  volatility : ℝ
  var90 : ℝ
  var95 : ℝ
  var99 : ℝ

/-- Source `calculatePortfolioVaR(portfolio, timeHorizon)`:
`portfolioVolatility = sqrt(portfolioVariance)`;
`dailyVolatility = portfolioVolatility/sqrt(365)`;
`periodVolatility = dailyVolatility*sqrt(timeHorizon)`;
`var_amount = portfolioValue * periodVolatility * zScore` for z-scores
`{90: 1.282, 95: 1.645, 99: 2.326}`. -/
noncomputable def calculatePortfolioVaR (positions : List RiskPosition)
    (timeHorizon : ℝ) : PortfolioVaRResult :=
  let portfolioValue := riskPortfolioValue positions
  let portfolioVolatility := Real.sqrt (portfolioVarianceCode positions)
  let dailyVolatility := portfolioVolatility / Real.sqrt 365
  let periodVolatility := dailyVolatility * Real.sqrt timeHorizon
  ⟨portfolioValue, portfolioVolatility,
    portfolioValue * periodVolatility * (1282/1000),
    portfolioValue * periodVolatility * (1645/1000),
    portfolioValue * periodVolatility * (2326/1000)⟩

/-- The two-position portfolio exhibiting the weight bug: equal position
values 100 and 100, volatilities 0.5 and 0.1, assets ETH and BTC. -/
noncomputable def c2Positions : List RiskPosition :=
  [⟨"ETH", 1, 100, some (1/2)⟩, ⟨"BTC", 1, 100, some (1/10)⟩]

end DeFi

/-- C2: the claim says every weight is `value_i / totalValue` (final
total).  The source's first loop instead divides by the *running* sum
(`portfolioValue += positionValue` happens before
`weight = positionValue / portfolioValue`), so the first position always
receives weight 1; only the correlation loop uses the final total — the
function is internally inconsistent and contradicts the documented
formula.  On two equal positions (values 100/100, σ = 0.5/0.1, ρ(ETH,BTC)
= 0.7) the code yields variance `1²·0.5² + 0.5²·0.1² + 0.0175 = 0.27`
while the claimed formula yields `0.5²·0.5² + 0.5²·0.1² + 0.0175 =
0.0825`. -/
theorem c2_variance_running_total_bug :
    portfolioVarianceCode c2Positions = 27/100 ∧
    portfolioVarianceSpec c2Positions = 33/400 ∧
    portfolioVarianceCode c2Positions ≠ portfolioVarianceSpec c2Positions := by
  have hfind : lookupCorrelation ("ETH" ++ "-" ++ "BTC") = some ((7:ℝ)/10) :=
    rfl
  have hcorr : getAssetCorrelation "ETH" "BTC" = 7/10 := by
    unfold getAssetCorrelation
    rw [hfind]
    simp only [jsOr]
    norm_num
  have hcode : portfolioVarianceCode c2Positions = 27/100 := by
    unfold portfolioVarianceCode riskPortfolioValue c2Positions
    simp only [List.foldl, riskVarStep, pairwiseCorrelationSum, jsOr,
      List.map, List.sum_cons, List.sum_nil, hcorr]
    norm_num
  have hspec : portfolioVarianceSpec c2Positions = 33/400 := by
    unfold portfolioVarianceSpec c2Positions
    simp only [List.foldl, riskVarStep, pairwiseCorrelationSum, jsOr,
      List.map, List.sum_cons, List.sum_nil, hcorr]
    norm_num
  exact ⟨hcode, hspec, by rw [hcode, hspec]; norm_num⟩

namespace DeFi

/-! ## BaseYieldCalculator strategy optimizer (prototype extension file)

`optimizeYieldStrategy` mutates its inputs: the `forEach` that computes
`riskAdjustedReturn` and `score` writes those two fields onto the very
strategy objects supplied by the caller (the `filter` result aliases
them).  The heap effect is made explicit: the embedding returns, next to
the result, the post-call state of every input strategy object. -/

/-- A strategy object.  `riskAdjustedReturn` and `score` model the two
properties the optimizer writes onto the object; fresh caller-supplied
strategies have them absent (`none`). -/
structure Strategy where
  name : String
  apy : ℚ
  risk : ℚ
  liquidity : ℚ
  riskAdjustedReturn : Option ℚ := none
  score : Option ℚ := none
  deriving DecidableEq, Repr

/-- The `constraints` object together with the source's destructuring
defaults `maxRisk = 0.3, minYield = 5, maxAllocationPerStrategy = 0.4,
totalCapital = 100000`. -/
structure Constraints where
  maxRisk : ℚ := 3/10
  minYield : ℚ := 5
  maxAllocationPerStrategy : ℚ := 2/5
  totalCapital : ℚ := 100000
  deriving DecidableEq, Repr

/-- The `strategies.filter` predicate:
`strategy.apy >= minYield && strategy.risk <= maxRisk`. -/
def passesFilter (c : Constraints) (s : Strategy) : Bool :=
  c.minYield ≤ s.apy && s.risk ≤ c.maxRisk

/-- The scoring `forEach` body:
`riskAdjustedReturn = apy / (risk || 0.1);
score = riskAdjustedReturn * (1 + liquidity / 100)` (a risk of exactly
`0` is falsy in JavaScript, hence the `0.1` fallback). -/
def scoreStrategy (s : Strategy) : Strategy :=
  let rar := s.apy / (if s.risk = 0 then 1/10 else s.risk)
  { s with riskAdjustedReturn := some rar,
           score := some (rar * (1 + s.liquidity / 100)) }

/-- Sort key of `validStrategies.sort((a, b) => b.score - a.score)`; after
the scoring pass every element's `score` is present. -/
def scoreOf (s : Strategy) : ℚ := s.score.getD 0

/-- One emitted allocation (numeric values of the formatted fields). -/
structure Allocation where
  strategy : String
  allocation : ℚ
  percentage : ℚ
  expectedReturn : ℚ
  risk : ℚ
  apy : ℚ
  deriving DecidableEq, Repr

/-- Mutable state of the allocation `for … of` loop. -/
structure AllocState where
  allocations : List Allocation
  remainingCapital : ℚ
  totalAllocatedRisk : ℚ
  deriving DecidableEq, Repr

/-- One iteration of the allocation loop.  The source `break`s out as soon
as `remainingCapital <= 0`; since `remainingCapital` never increases, the
loop body is a no-op from that point on, so the `break` is embedded as a
guard. -/
def allocStep (c : Constraints) (st : AllocState) (s : Strategy) : AllocState :=
  if st.remainingCapital ≤ 0 then st
  else
    let maxAllocation := min st.remainingCapital
        (min (c.totalCapital * c.maxAllocationPerStrategy)
          (c.totalCapital * (4/5)))
    let allocation := min maxAllocation (st.remainingCapital * (3/10))
    if allocation > 1000 then
      { allocations := st.allocations ++
          [⟨s.name, allocation, allocation / c.totalCapital * 100,
            allocation * s.apy / 100, s.risk, s.apy⟩],
        remainingCapital := st.remainingCapital - allocation,
        totalAllocatedRisk := st.totalAllocatedRisk
          + allocation / c.totalCapital * s.risk }
    else st

/-- The `portfolioMetrics` object (numeric values kept, the
`diversificationScore` / `riskLevel` strings as in the source). -/
structure PortfolioMetrics where
  totalAllocated : ℚ
  remainingCash : ℚ
  weightedAPY : ℚ
  portfolioRisk : ℚ
  diversificationScore : String
  riskLevel : String
  deriving DecidableEq, Repr

/-- Successful result object of `optimizeYieldStrategy`. -/
structure OptimizeResult where
  allocations : List Allocation
  portfolioMetrics : PortfolioMetrics
  deriving DecidableEq, Repr

/-- Source `optimizeYieldStrategy(strategies, constraints)`.  First component:
the returned value (`Except.error` models the
`{ error: 'No strategies meet the specified constraints' }` early
return).  Second component: the post-call contents of the caller's
strategy objects — those passing the filter have been scored in place,
the rest are untouched.  `Array.prototype.sort` under the comparator
`b.score - a.score` is a stable descending sort; `List.insertionSort`
with the non-strict relation `scoreOf b ≤ scoreOf a` produces exactly
that order (descending, ties kept in input order). -/
def optimizeYieldStrategy (strategies : List Strategy) (c : Constraints) :
    Except String OptimizeResult × List Strategy :=
  let strategiesAfter := strategies.map
    (fun s => if passesFilter c s then scoreStrategy s else s)
  let validStrategies := (strategies.filter (passesFilter c)).map scoreStrategy
  if validStrategies.isEmpty then
    (Except.error "No strategies meet the specified constraints",
      strategiesAfter)
  else
    let sorted := validStrategies.insertionSort (fun a b => scoreOf b ≤ scoreOf a)
    let st := sorted.foldl (allocStep c) ⟨[], c.totalCapital, 0⟩
    let totalAllocated := c.totalCapital - st.remainingCapital
    let weightedAPY :=
      (st.allocations.map (fun a => a.expectedReturn / totalAllocated * 100)).sum
    (Except.ok ⟨st.allocations,
      ⟨totalAllocated, st.remainingCapital, weightedAPY,
        st.totalAllocatedRisk * 100,
        if st.allocations.length ≥ 3 then "Good" else "Needs improvement",
        if st.totalAllocatedRisk < 15/100 then "Conservative"
        else if st.totalAllocatedRisk < 25/100 then "Moderate"
        else "Aggressive"⟩⟩,
      strategiesAfter)

end DeFi

namespace DeFi

/-- Sum of the emitted allocation amounts. -/
def sumAlloc (l : List Allocation) : ℚ := (l.map (fun a => a.allocation)).sum

/-- Every allocation emitted by the loop carries the `risk` field of some
strategy from the processed list (or was already present). -/
lemma allocLoop_risk (c : Constraints) (m : ℚ) :
    ∀ (l : List Strategy) (st : AllocState),
      (∀ a ∈ st.allocations, a.risk ≤ m) →
      (∀ s ∈ l, s.risk ≤ m) →
      ∀ a ∈ (l.foldl (allocStep c) st).allocations, a.risk ≤ m := by
  intro l
  induction l with
  | nil => intro st h _; exact h
  | cons s rest ih =>
      intro st hst hl
      refine ih (allocStep c st s) ?_
        (fun t ht => hl t (List.mem_cons_of_mem _ ht))
      intro a ha
      simp only [allocStep] at ha
      split_ifs at ha
      · exact hst a ha
      · rcases List.mem_append.mp ha with h1 | h2
        · exact hst a h1
        · have h3 := List.mem_singleton.mp h2
          subst h3
          exact hl s (List.mem_cons_self s rest)
      · exact hst a ha

/-- The allocation loop conserves `remainingCapital + Σ allocation` and
keeps `remainingCapital` non-negative. -/
lemma allocLoop_capital (c : Constraints) :
    ∀ (l : List Strategy) (st : AllocState),
      0 ≤ st.remainingCapital →
      0 ≤ (l.foldl (allocStep c) st).remainingCapital ∧
      (l.foldl (allocStep c) st).remainingCapital
          + sumAlloc (l.foldl (allocStep c) st).allocations
        = st.remainingCapital + sumAlloc st.allocations := by
  intro l
  induction l with
  | nil => intro st h; exact ⟨h, rfl⟩
  | cons s rest ih =>
      intro st hst
      have hstep : 0 ≤ (allocStep c st s).remainingCapital ∧
          (allocStep c st s).remainingCapital
              + sumAlloc (allocStep c st s).allocations
            = st.remainingCapital + sumAlloc st.allocations := by
        simp only [allocStep]
        split_ifs with h1 h2
        · exact ⟨hst, rfl⟩
        · push_neg at h1
          have hmin : min (min st.remainingCapital
                (min (c.totalCapital * c.maxAllocationPerStrategy)
                  (c.totalCapital * (4/5))))
                (st.remainingCapital * (3/10))
              ≤ st.remainingCapital * (3/10) := min_le_right _ _
          constructor
          · dsimp only
            linarith
          · dsimp only
            simp only [sumAlloc, List.map_append, List.sum_append,
              List.map_cons, List.map_nil, List.sum_cons, List.sum_nil]
            ring
        · exact ⟨hst, rfl⟩
      obtain ⟨h1, h2⟩ := hstep
      obtain ⟨h3, h4⟩ := ih (allocStep c st s) h1
      simp only [List.foldl_cons]
      exact ⟨h3, by rw [h4, h2]⟩

/-- Every strategy surviving filtering, scoring and sorting respects the
`maxRisk` bound (the score pass does not touch `risk`). -/
lemma sorted_risk_le (strategies : List Strategy) (c : Constraints) :
    ∀ s ∈ ((strategies.filter (passesFilter c)).map scoreStrategy).insertionSort
        (fun a b => scoreOf b ≤ scoreOf a), s.risk ≤ c.maxRisk := by
  intro s hs
  rw [List.mem_insertionSort] at hs
  rcases List.mem_map.mp hs with ⟨t, ht, rfl⟩
  have hpass := (List.mem_filter.mp ht).2
  simp only [passesFilter, Bool.and_eq_true, decide_eq_true_eq] at hpass
  simpa [scoreStrategy] using hpass.2

end DeFi

/-- C1: for every strategy list and constraints with positive
`totalCapital`, when `optimizeYieldStrategy` succeeds every returned
allocation has `risk ≤ constraints.maxRisk` and the emitted amounts sum
to at most `constraints.totalCapital`. -/
theorem c1_optimizer_invariants (strategies : List Strategy)
    (c : Constraints) (hcap : 0 < c.totalCapital) :
    ∀ res, (optimizeYieldStrategy strategies c).1 = Except.ok res →
      (∀ a ∈ res.allocations, a.risk ≤ c.maxRisk) ∧
      (res.allocations.map (fun a => a.allocation)).sum ≤ c.totalCapital := by
  intro res hres
  simp only [optimizeYieldStrategy] at hres
  by_cases hemp :
      ((strategies.filter (passesFilter c)).map scoreStrategy).isEmpty
  · rw [if_pos hemp] at hres
    exact absurd hres (by simp)
  · rw [if_neg hemp] at hres
    dsimp only at hres
    have hok := Except.ok.inj hres
    subst hok
    dsimp only
    set sorted := ((strategies.filter (passesFilter c)).map
        scoreStrategy).insertionSort (fun a b => scoreOf b ≤ scoreOf a) with hsorted
    have hrisk := allocLoop_risk c c.maxRisk sorted
      ⟨[], c.totalCapital, 0⟩ (by intro a ha; simp at ha)
      (sorted_risk_le strategies c)
    have hcapital := allocLoop_capital c sorted ⟨[], c.totalCapital, 0⟩
      (le_of_lt hcap)
    refine ⟨hrisk, ?_⟩
    obtain ⟨hnn, hsum⟩ := hcapital
    simp only [sumAlloc, List.map_nil, List.sum_nil, add_zero] at hsum
    linarith

namespace DeFi

/-- A concrete caller-supplied strategy list (one strategy passing the
default constraints). -/
def c1Strategies : List Strategy :=
  [{ name := "Strategy A", apy := 12, risk := 1/5, liquidity := 80 }]

/-- The source's default constraints object. -/
def c1Constraints : Constraints := {}

/-- The result `optimizeYieldStrategy` computes on `c1Strategies` under
the default constraints: one allocation of 30000 (= min of the 40%-cap
40000 and 30% of remaining 30000). -/
def c1Result : OptimizeResult :=
  ⟨[⟨"Strategy A", 30000, 30, 3600, 1/5, 12⟩],
    ⟨30000, 70000, 12, 6, "Needs improvement", "Conservative"⟩⟩

end DeFi

/-- C1 (witness): the invariants instantiated on the concrete
single-strategy run. -/
theorem c1_witness :
    (0:ℚ) < c1Constraints.totalCapital ∧
    ((∀ a ∈ c1Result.allocations, a.risk ≤ c1Constraints.maxRisk) ∧
      (c1Result.allocations.map (fun a => a.allocation)).sum
        ≤ c1Constraints.totalCapital) := by
  refine ⟨by norm_num [c1Constraints],
    c1_optimizer_invariants c1Strategies c1Constraints
      (by norm_num [c1Constraints]) c1Result ?_⟩
  norm_num [optimizeYieldStrategy, c1Strategies, c1Constraints, c1Result,
    passesFilter, scoreStrategy, scoreOf, allocStep,
    List.insertionSort, List.orderedInsert, min_def]

/-- C9 (counterexample): the optimizer is not free of effects on its
input strategy objects — after the call, the strategy that passed the
filter has acquired `riskAdjustedReturn` and `score` fields, so the
post-call object list differs from the input list. -/
theorem c9_counterexample :
    (optimizeYieldStrategy c1Strategies c1Constraints).2 ≠ c1Strategies := by
  intro h
  have hpost : (optimizeYieldStrategy c1Strategies c1Constraints).2
      = [scoreStrategy
          { name := "Strategy A", apy := 12, risk := (1:ℚ)/5, liquidity := 80 }] := by
    norm_num [optimizeYieldStrategy, c1Strategies, c1Constraints, passesFilter]
  rw [hpost, c1Strategies] at h
  simp [scoreStrategy] at h

/-- C9 (amended): `optimizeYieldStrategy` never modifies or removes the
original `name`/`apy`/`risk`/`liquidity` fields of any input strategy and
leaves strategies failing the constraint filter completely untouched, but
it does mutate every strategy passing the filter, adding
`riskAdjustedReturn = apy/(risk || 0.1)` and
`score = riskAdjustedReturn * (1 + liquidity/100)` fields in place. -/
theorem c9_strategy_mutation (strategies : List Strategy) (c : Constraints) :
    List.Forall₂ (fun s s' =>
      s'.name = s.name ∧ s'.apy = s.apy ∧ s'.risk = s.risk ∧
      s'.liquidity = s.liquidity ∧
      (passesFilter c s = false → s' = s) ∧
      (passesFilter c s = true →
        s'.riskAdjustedReturn
            = some (s.apy / (if s.risk = 0 then 1/10 else s.risk)) ∧
        s'.score
            = some (s.apy / (if s.risk = 0 then 1/10 else s.risk)
                * (1 + s.liquidity / 100))))
      strategies (optimizeYieldStrategy strategies c).2 := by
  have h2 : (optimizeYieldStrategy strategies c).2
      = strategies.map
          (fun s => if passesFilter c s then scoreStrategy s else s) := by
    simp only [optimizeYieldStrategy]
    split <;> rfl
  rw [h2, List.forall₂_map_right_iff]
  rw [List.forall₂_same]
  intro x _
  by_cases hp : passesFilter c x
  · simp [hp, scoreStrategy]
  · simp [hp]

namespace DeFi

/-! ## BaseYieldCalculator advanced impermanent loss
(prototype extension file) -/

/-- The `poolData` object of `calculateAdvancedImpermanentLoss`. -/
structure PoolState where
  token0Amount : ℝ
  token1Amount : ℝ
  token0Price : ℝ
  token1Price : ℝ

/-- A price scenario: fractional changes applied to the two token
prices. -/
structure Scenario where
  name : String
  token0Change : ℝ
  token1Change : ℝ

/-- The four built-in scenarios used when the caller passes none. -/
noncomputable def defaultScenarios : List Scenario :=
  [⟨"Conservative", 1/10, -(5/100)⟩, ⟨"Moderate", 25/100, -(15/100)⟩,
    ⟨"Aggressive", 1/2, -(3/10)⟩, ⟨"Extreme", 1, -(1/2)⟩]

/-- Quantity `newRatio = newToken0Price / newToken1Price` for a scenario. -/
noncomputable def scenarioNewRatio (pool : PoolState) (sc : Scenario) : ℝ :=
  (pool.token0Price * (1 + sc.token0Change))
    / (pool.token1Price * (1 + sc.token1Change))

/-- Quantity `newToken0Amount = Math.sqrt(k * newRatio)` with
`k = token0Amount * token1Amount`. -/
noncomputable def scenarioNewToken0Amount (pool : PoolState) (sc : Scenario) : ℝ :=
  Real.sqrt ((pool.token0Amount * pool.token1Amount) * scenarioNewRatio pool sc)

/-- Quantity `newToken1Amount = k / newToken0Amount`. -/
noncomputable def scenarioNewToken1Amount (pool : PoolState) (sc : Scenario) : ℝ :=
  (pool.token0Amount * pool.token1Amount) / scenarioNewToken0Amount pool sc

/-- Per-scenario output row of `calculateAdvancedImpermanentLoss`
(numeric values kept; recommendation strings dropped). -/
structure ScenarioResult where
  scenario : String
  impermanentLoss : ℝ
  poolValue : ℝ
  holdValue : ℝ
  difference : ℝ
  severity : String

/-- The body of the `scenarios.map` in
`calculateAdvancedImpermanentLoss`. -/
noncomputable def scenarioResult (pool : PoolState) (sc : Scenario) :
    ScenarioResult :=
  let newToken0Price := pool.token0Price * (1 + sc.token0Change)
  let newToken1Price := pool.token1Price * (1 + sc.token1Change)
  let initialRatio := pool.token0Price / pool.token1Price
  let priceRatioChange := scenarioNewRatio pool sc / initialRatio
  let il := 2 * Real.sqrt priceRatioChange / (1 + priceRatioChange) - 1
  let poolValue := scenarioNewToken0Amount pool sc * newToken0Price
      + scenarioNewToken1Amount pool sc * newToken1Price
  let holdValue := pool.token0Amount * newToken0Price
      + pool.token1Amount * newToken1Price
  ⟨sc.name, |il| * 100, poolValue, holdValue, poolValue - holdValue,
    if |il| > 2/10 then "High" else if |il| > 1/10 then "Medium" else "Low"⟩

/-- Source `calculateAdvancedImpermanentLoss(poolData, priceScenarios)` (scenario
rows and initial value; the textual risk assessment is omitted). -/
noncomputable def calculateAdvancedImpermanentLoss (pool : PoolState)
    (priceScenarios : List Scenario) : ℝ × List ScenarioResult :=
  let scenarios :=
    if priceScenarios.isEmpty then defaultScenarios else priceScenarios
  (pool.token0Amount * pool.token0Price
      + pool.token1Amount * pool.token1Price,
    scenarios.map (scenarioResult pool))

end DeFi

/-- C6: in every scenario of the advanced impermanent-loss computation
(any pool with positive amounts and prices and any scenario whose price
changes exceed −100%, which covers all four built-in scenarios), the
re-derived pool composition is `newToken0Amount = sqrt(k * r')` and
`newToken1Amount = k / newToken0Amount`, and it preserves the
constant-product invariant `newToken0Amount * newToken1Amount = k` with
`k = token0Amount * token1Amount`. -/
theorem c6_constant_product (pool : PoolState) (sc : Scenario)
    (h0 : 0 < pool.token0Amount) (h1 : 0 < pool.token1Amount)
    (hp0 : 0 < pool.token0Price) (hp1 : 0 < pool.token1Price)
    (hc0 : -1 < sc.token0Change) (hc1 : -1 < sc.token1Change) :
    scenarioNewToken0Amount pool sc
        = Real.sqrt ((pool.token0Amount * pool.token1Amount)
            * scenarioNewRatio pool sc) ∧
    scenarioNewToken1Amount pool sc
        = (pool.token0Amount * pool.token1Amount)
            / scenarioNewToken0Amount pool sc ∧
    scenarioNewToken0Amount pool sc * scenarioNewToken1Amount pool sc
        = pool.token0Amount * pool.token1Amount := by
  refine ⟨rfl, rfl, ?_⟩
  have hratio : 0 < scenarioNewRatio pool sc := by
    unfold scenarioNewRatio
    have ha : 0 < 1 + sc.token0Change := by linarith
    have hb : 0 < 1 + sc.token1Change := by linarith
    positivity
  have harg : 0 < (pool.token0Amount * pool.token1Amount)
      * scenarioNewRatio pool sc := by positivity
  have hsqrt : scenarioNewToken0Amount pool sc ≠ 0 := by
    unfold scenarioNewToken0Amount
    exact ne_of_gt (Real.sqrt_pos.mpr harg)
  unfold scenarioNewToken1Amount
  rw [mul_comm, div_mul_cancel₀ _ hsqrt]

/-- C6 (witness): the test suite's pool (1000/2000 tokens at prices
2500/1) under the built-in `Conservative` scenario. -/
theorem c6_witness :
    ((0:ℝ) < 1000 ∧ (0:ℝ) < 2000 ∧ (0:ℝ) < 2500 ∧ (0:ℝ) < 1 ∧
      (-1:ℝ) < 1/10 ∧ (-1:ℝ) < -(5/100)) ∧
    (scenarioNewToken0Amount ⟨1000, 2000, 2500, 1⟩
          ⟨"Conservative", 1/10, -(5/100)⟩
        * scenarioNewToken1Amount ⟨1000, 2000, 2500, 1⟩
          ⟨"Conservative", 1/10, -(5/100)⟩
      = 1000 * 2000) := by
  refine ⟨by norm_num, ?_⟩
  exact (c6_constant_product ⟨1000, 2000, 2500, 1⟩
    ⟨"Conservative", 1/10, -(5/100)⟩ (by norm_num) (by norm_num)
    (by norm_num) (by norm_num) (by norm_num) (by norm_num)).2.2
